import Mathlib

/-!
Shallow embedding of the Streamlit download-dashboard (`ap.py`):
the snapshot refresh function `actualizar_csv_con_st_connection`, the
reader/enricher `load_data` (region fill via the optional reverse
geocoder, date derivation), and the aggregations (`df_zona`, the
date-range filter and daily summaries).

Machine data is modelled with `Nat`/`Int`; timestamps are integral
(seconds), the derived calendar date is the day number `ts / 86400`.
A pandas cell is a `String`; a CSV file is a list of rows, each row a
list of cells (pandas' quoting makes the cell layer the faithful
round-trip boundary).  A pandas `NaN` region is `Option.none`.
-/

namespace Dashboard

/-- One record of the `descargas` table as `read_csv` materialises it:
`id`, `id_descargado`, coordinates, nullable `region`, timestamp. -/
structure Row where
  id : Nat
  id_descargado : Nat
  lat : Int
  lon : Int
  region : Option String
  fecha_hora_descarga : Nat
  deriving Repr, DecidableEq

/-- A record after `load_data`'s processing: same columns plus the
derived `fecha` (calendar day) column from line 165 of `ap.py`. -/
structure EnrichedRow where
  id : Nat
  id_descargado : Nat
  lat : Int
  lon : Int
  region : Option String
  fecha_hora_descarga : Nat
  fecha : Nat
  deriving Repr, DecidableEq

/-- Decimal digit character for `d < 10` (cells are text). -/
def digitCharOf (d : Nat) : Char := Char.ofNat (48 + d)

/-- Fuel-bounded decimal rendering (structural recursion so that the
kernel can evaluate it); `n < fuel` suffices for full rendering. -/
def natToDigitsAux : Nat → Nat → List Char
  | 0, _ => []
  | fuel + 1, n =>
    if n < 10 then [digitCharOf n]
    else natToDigitsAux fuel (n / 10) ++ [digitCharOf (n % 10)]

/-- Decimal rendering of a natural number, most significant digit
first, as pandas `to_csv` writes integer cells. -/
def natToDigits (n : Nat) : List Char := natToDigitsAux (n + 1) n

/-- Value of a decimal digit character, `none` on a non-digit. -/
def digitVal (c : Char) : Option Nat :=
  if 48 ≤ c.toNat ∧ c.toNat ≤ 57 then some (c.toNat - 48) else none

/-- Left fold of decimal digits onto an accumulator; fails on the
first non-digit character. -/
def parseNatAux : List Char → Nat → Option Nat
  | [], acc => some acc
  | c :: cs, acc =>
    match digitVal c with
    | some d => parseNatAux cs (acc * 10 + d)
    | none => none

/-- Parse a decimal natural-number cell (as pandas type inference
reads an integer column); the empty cell fails. -/
def parseNatCell (s : String) : Option Nat :=
  match s.data with
  | [] => none
  | c :: cs => parseNatAux (c :: cs) 0

/-- Render an integer cell: minus sign then decimal digits. -/
def intRepr (i : Int) : String :=
  if i < 0 then ⟨'-' :: natToDigits (-i).toNat⟩ else ⟨natToDigits i.toNat⟩

/-- Parse an integer cell. -/
def parseIntCell (s : String) : Option Int :=
  match s.data with
  | [] => none
  | c :: cs =>
    if c = '-' then (parseNatAux cs 0).map (fun n => -(n : Int))
    else (parseNatAux (c :: cs) 0).map (fun n => (n : Int))

/-- Render the nullable region cell: a missing region is the empty
cell, exactly how `to_csv` writes `NaN`. -/
def regionCell : Option String → String
  | none => ""
  | some s => s

/-- Read the region cell back: pandas `read_csv` turns an empty cell
into `NaN`. -/
def parseRegionCell (s : String) : Option String :=
  if s = "" then none else some s

/-- Column order of the snapshot file. -/
def csvHeader : List String :=
  ["id", "id_descargado", "lat", "lon", "region", "fecha_hora_descarga"]

/-- A CSV file: the header row followed by data rows, one list of
cells per row. -/
abbrev Csv : Type := List (List String)

/-- Serialise one record to its cells. -/
def rowToCells (r : Row) : List String :=
  [⟨natToDigits r.id⟩, ⟨natToDigits r.id_descargado⟩, intRepr r.lat,
    intRepr r.lon, regionCell r.region, ⟨natToDigits r.fecha_hora_descarga⟩]

/-- Parse one data row; fails unless all six cells parse. -/
def cellsToRow : List String → Option Row
  | [a, b, c, d, e, f] => do
    let i ← parseNatCell a
    let idd ← parseNatCell b
    let la ← parseIntCell c
    let lo ← parseIntCell d
    let ts ← parseNatCell f
    pure ⟨i, idd, la, lo, parseRegionCell e, ts⟩
  | _ => none

/-- The `df_datos.to_csv(archivo_csv, index=False)` call of line 64:
header row then one row of cells per record. -/
def to_csv (rows : List Row) : Csv :=
  csvHeader :: rows.map rowToCells

/-- Parse the data rows of a CSV file in order; any bad row fails the
whole read (pandas raises, `load_data`'s generic handler catches). -/
def readRows : List (List String) → Option (List Row)
  | [] => some []
  | cs :: rest =>
    match cellsToRow cs, readRows rest with
    | some r, some rs => some (r :: rs)
    | _, _ => none

/-- Outcome of `pd.read_csv` on the snapshot path, as `load_data`
distinguishes them: file absent, file empty, unreadable content, or a
materialised table. -/
inductive ReadResult where
  | fileNotFound
  | emptyData
  | parseError
  | table (rows : List Row)
  deriving Repr, DecidableEq

/-- Read the snapshot file (`pd.read_csv(archivo_csv)` at line 113):
no file raises `FileNotFoundError`, a fully empty file raises
`EmptyDataError`, otherwise the header names the columns and the data
rows are parsed. -/
def readFile : Option Csv → ReadResult
  | none => ReadResult.fileNotFound
  | some [] => ReadResult.emptyData
  | some (hdr :: data) =>
    if hdr = csvHeader then
      match readRows data with
      | some rows => ReadResult.table rows
      | none => ReadResult.parseError
    else ReadResult.parseError

/-- Availability of the reverse-geocoding capability: the import at
lines 7-11 may fail (`rg = None`); when present, the batch
`rg.search` either raises (one all-or-nothing `except` at lines
135-155) or returns one `admin1` name per coordinate pair, modelled
as a per-coordinate function. -/
inductive GeoCap where
  | missing
  | failing
  | working (f : Int → Int → String)

/-- User-facing messages the pipeline emits (presentation layer). -/
inductive Msg where
  | infoPromptRefresh
  | warnEmptyDf
  | warnEmptyFile
  | errCritical
  | errGeoMissing
  | infoFilling
  | errGeoFail
  deriving Repr, DecidableEq

/-- Per-row effect of the fill branch taken at lines 127-155: with
the dependency missing, `fillna('Desconocida')`; on a geocoding
error, `fillna('Error Geocodificación')`; with a working geocoder,
rows selected by `missing_region_mask` get the looked-up `admin1`. -/
def fillRow (cap : GeoCap) (r : Row) : Row :=
  match cap with
  | GeoCap.missing => { r with region := some (r.region.getD "Desconocida") }
  | GeoCap.failing =>
    { r with region := some (r.region.getD "Error Geocodificación") }
  | GeoCap.working f =>
    match r.region with
    | none => { r with region := some (f r.lat r.lon) }
    | some _ => r

/-- The region-fill step of `load_data` (lines 120-158): if any
region is null the branch for the current capability runs, then line
158 applies a final `fillna('Desconocida')` to the whole column. -/
def fillRegions (cap : GeoCap) (rows : List Row) : List Row :=
  let step :=
    if rows.any (fun r => r.region.isNone) then rows.map (fillRow cap)
    else rows
  step.map (fun r => { r with region := some (r.region.getD "Desconocida") })

/-- Messages the fill step emits along the way. -/
def fillMsgs (cap : GeoCap) (rows : List Row) : List Msg :=
  if rows.any (fun r => r.region.isNone) then
    match cap with
    | GeoCap.missing => [Msg.errGeoMissing]
    | GeoCap.failing => [Msg.infoFilling, Msg.errGeoFail]
    | GeoCap.working _ => [Msg.infoFilling]
  else []

/-- Day number of an integral timestamp: the `.dt.date` derivation of
line 165 (`fecha` keeps only the calendar day). -/
def dateOf (ts : Nat) : Nat := ts / 86400

/-- Date processing of lines 162-165: parse the timestamp and add the
derived `fecha` column. -/
def enrichRow (r : Row) : EnrichedRow :=
  ⟨r.id, r.id_descargado, r.lat, r.lon, r.region, r.fecha_hora_descarga,
    dateOf r.fecha_hora_descarga⟩

/-- The reader/enricher `load_data` (lines 106-179) over an already
performed file read: a missing file yields `None` plus the
please-refresh prompt, an empty file or empty table yields `None`
with a warning, any other read error is caught and yields `None`;
otherwise regions are filled and dates derived. -/
def load_data (cap : GeoCap) : ReadResult → Option (List EnrichedRow) × List Msg
  | ReadResult.fileNotFound => (none, [Msg.infoPromptRefresh])
  | ReadResult.emptyData => (none, [Msg.warnEmptyFile])
  | ReadResult.parseError => (none, [Msg.errCritical])
  | ReadResult.table rows =>
    if rows.isEmpty then (none, [Msg.warnEmptyDf])
    else (some ((fillRegions cap rows).map enrichRow), fillMsgs cap rows)

/-- How one run of the refresh can go, in the order the `try` of
lines 32-85 distinguishes them: the named connection absent from
secrets, an `OperationalError` from the connection or query, a
`FileNotFoundError` for the driver, any other exception raised before
the write starts, an exception raised by the `to_csv` write itself at
line 64 after it already truncated the file and emitted `written`
rows (also caught by the `except Exception` of line 82), or a
successful query whose data is written in full. -/
inductive RefreshEvent where
  | configMissing
  | operationalError
  | driverNotFound
  | unexpectedError
  | writeError (data : List Row) (written : Nat)
  | querySuccess (data : List Row)

/-- Whether the event is one of the failure outcomes (the refresh
returns `False`). -/
def RefreshEvent.isFailure : RefreshEvent → Bool
  | RefreshEvent.querySuccess _ => false
  | _ => true

/-- Whether the event is a failure raised before the `to_csv` write
at line 64 begins: only these leave the snapshot file untouched. -/
def RefreshEvent.isPreWriteFailure : RefreshEvent → Bool
  | RefreshEvent.configMissing => true
  | RefreshEvent.operationalError => true
  | RefreshEvent.driverNotFound => true
  | RefreshEvent.unexpectedError => true
  | _ => false

/-- The refresh `actualizar_csv_con_st_connection` (lines 14-85) as a
transition on the snapshot file: failures before the write return
`False` with the file untouched; a failure of the write itself also
returns `False` (the generic handler of line 82 catches it) but
leaves the file truncated to the rows emitted so far, since `to_csv`
opens the file in write mode before writing; success overwrites the
file with the full query result and returns `True`. -/
def actualizar_csv_con_st_connection (ev : RefreshEvent)
    (file : Option Csv) : Bool × Option Csv :=
  match ev with
  | RefreshEvent.querySuccess data => (true, some (to_csv data))
  | RefreshEvent.writeError data written => (false, some ((to_csv data).take written))
  | _ => (false, file)

/-- One output row of the region summary `df_zona` (lines 233-240):
per-region total record count and distinct downloaded-item count. -/
structure ZonaRow where
  region : String
  descargas : Nat
  descargas_unicas : Nat
  deriving Repr, DecidableEq

/-- The `groupby('region').agg(...)` of lines 233-238: one row per
distinct non-null region (pandas drops null keys), with `count` of
`id` and `nunique` of `id_descargado`. -/
def df_zona (rows : List EnrichedRow) : List ZonaRow :=
  ((rows.filterMap (fun r => r.region)).dedup).map (fun z =>
    ⟨z, (rows.filter (fun r => r.region = some z)).length,
      ((rows.filter (fun r => r.region = some z)).map
        (fun r => r.id_descargado)).dedup.length⟩)

/-- Line 242: `df_principal.shape[0]`, the all-time record count. -/
def total_descargas_global (rows : List EnrichedRow) : Nat := rows.length

/-- Line 243: `df_principal['id_descargado'].nunique()`, the all-time
distinct downloaded-item count. -/
def total_unicas_global (rows : List EnrichedRow) : Nat :=
  ((rows.map (fun r => r.id_descargado)).dedup).length

/-- The date-range filter of lines 306-309: rows whose `fecha` lies
in the inclusive selected range. -/
def df_filtrado_fecha (rows : List EnrichedRow) (start_date end_date : Nat) :
    List EnrichedRow :=
  rows.filter (fun r => start_date ≤ r.fecha && r.fecha ≤ end_date)

/-- One row of the per-day histogram (lines 317-318). -/
structure HistRow where
  fecha : Nat
  numero_descargas_totales : Nat
  deriving Repr, DecidableEq

/-- One row of the per-day distinct-count table (line 330). -/
structure FechaAggRow where
  fecha : Nat
  numero_descargas_unicas : Nat
  deriving Repr, DecidableEq

/-- The `groupby('fecha').agg(numero_descargas_totales=('id','count'))`
of lines 317-318 over the filtered table. -/
def df_hist (rows : List EnrichedRow) : List HistRow :=
  ((rows.map (fun r => r.fecha)).dedup).map (fun d =>
    ⟨d, (rows.filter (fun r => r.fecha = d)).length⟩)

/-- The `groupby('fecha').agg(... nunique ...)` of line 330. -/
def df_fecha_agg (rows : List EnrichedRow) : List FechaAggRow :=
  ((rows.map (fun r => r.fecha)).dedup).map (fun d =>
    ⟨d, ((rows.filter (fun r => r.fecha = d)).map
      (fun r => r.id_descargado)).dedup.length⟩)

/-- What the date-range branch renders (lines 311-331): the warning
when the filtered table is empty, otherwise the two summaries. -/
inductive DateReport where
  | noData
  | report (hist : List HistRow) (uniq : List FechaAggRow)
  deriving Repr, DecidableEq

/-- The daily-summary computation over a selected range. -/
def dateRangeReport (rows : List EnrichedRow) (start_date end_date : Nat) :
    DateReport :=
  let f := df_filtrado_fecha rows start_date end_date
  if f.isEmpty then DateReport.noData
  else DateReport.report (df_hist f) (df_fecha_agg f)

/-! Helper lemmas: the decimal-cell codec round trip. -/

theorem digitVal_digitCharOf : ∀ d : Nat, d < 10 → digitVal (digitCharOf d) = some d := by
  decide

theorem digitCharOf_toNat :
    ∀ d : Nat, d < 10 → 48 ≤ (digitCharOf d).toNat ∧ (digitCharOf d).toNat ≤ 57 := by
  decide

theorem parseNatAux_append (l₁ l₂ : List Char) (acc : Nat) :
    parseNatAux (l₁ ++ l₂) acc =
      match parseNatAux l₁ acc with
      | some m => parseNatAux l₂ m
      | none => none := by
  induction l₁ generalizing acc with
  | nil => simp [parseNatAux]
  | cons c cs ih =>
    simp only [List.cons_append, parseNatAux]
    cases digitVal c with
    | none => simp
    | some d => simp [ih]

theorem natToDigitsAux_spec (fuel : Nat) :
    ∀ n acc, n < fuel →
      ∃ k, parseNatAux (natToDigitsAux fuel n) acc = some (acc * 10 ^ k + n) := by
  induction fuel with
  | zero => intro n acc h; omega
  | succ fuel ih =>
    intro n acc h
    by_cases h10 : n < 10
    · refine ⟨1, ?_⟩
      simp [natToDigitsAux, h10, parseNatAux, digitVal_digitCharOf n h10]
    · have hdiv : n / 10 < fuel := by
        have := Nat.div_lt_self (show 0 < n by omega) (show 1 < 10 by omega)
        omega
      obtain ⟨k, hk⟩ := ih (n / 10) acc hdiv
      refine ⟨k + 1, ?_⟩
      simp only [natToDigitsAux, if_neg h10]
      rw [parseNatAux_append, hk]
      have hm : n % 10 < 10 := Nat.mod_lt _ (by omega)
      simp [parseNatAux, digitVal_digitCharOf _ hm]
      have hpow : acc * 10 ^ (k + 1) = acc * 10 ^ k * 10 := by ring
      rw [hpow]
      omega

theorem natToDigits_mem_digit (fuel : Nat) :
    ∀ n, n < fuel → ∀ c ∈ natToDigitsAux fuel n, 48 ≤ c.toNat ∧ c.toNat ≤ 57 := by
  induction fuel with
  | zero => intro n h; omega
  | succ fuel ih =>
    intro n h c hc
    by_cases h10 : n < 10
    · simp [natToDigitsAux, h10] at hc
      subst hc
      exact digitCharOf_toNat n h10
    · have hdiv : n / 10 < fuel := by
        have := Nat.div_lt_self (show 0 < n by omega) (show 1 < 10 by omega)
        omega
      simp [natToDigitsAux, h10] at hc
      rcases hc with hc | hc
      · exact ih (n / 10) hdiv c hc
      · subst hc
        exact digitCharOf_toNat _ (Nat.mod_lt _ (by omega))

theorem natToDigits_ne_nil (n : Nat) : natToDigits n ≠ [] := by
  unfold natToDigits natToDigitsAux
  by_cases h10 : n < 10 <;> simp [h10]

theorem parseNatCell_natToDigits (n : Nat) : parseNatCell ⟨natToDigits n⟩ = some n := by
  obtain ⟨c, cs, h⟩ := List.exists_cons_of_ne_nil (natToDigits_ne_nil n)
  obtain ⟨k, hk⟩ := natToDigitsAux_spec (n + 1) n 0 (by omega)
  have hk' : parseNatAux (natToDigits n) 0 = some (0 * 10 ^ k + n) := hk
  simp only [parseNatCell, h]
  rw [← h, hk']
  simp

theorem parseNatAux_natToDigits (n : Nat) : parseNatAux (natToDigits n) 0 = some n := by
  obtain ⟨k, hk⟩ := natToDigitsAux_spec (n + 1) n 0 (by omega)
  have hk' : parseNatAux (natToDigits n) 0 = some (0 * 10 ^ k + n) := hk
  rw [hk']
  simp

theorem natToDigits_head_ne_minus (n : Nat) (c : Char) (cs : List Char)
    (h : natToDigits n = c :: cs) : ¬ c = '-' := by
  intro hc
  have hmem : c ∈ natToDigitsAux (n + 1) n := by
    rw [show natToDigitsAux (n + 1) n = natToDigits n from rfl, h]
    exact List.mem_cons_self _ _
  have hdig := natToDigits_mem_digit (n + 1) n (by omega) c hmem
  subst hc
  revert hdig
  decide

theorem parseIntCell_intRepr (i : Int) : parseIntCell (intRepr i) = some i := by
  by_cases hneg : i < 0
  · simp only [intRepr, if_pos hneg, parseIntCell]
    simp only [parseNatAux_natToDigits]
    simp
    omega
  · simp only [intRepr, if_neg hneg]
    obtain ⟨c, cs, h⟩ := List.exists_cons_of_ne_nil (natToDigits_ne_nil i.toNat)
    simp only [parseIntCell, h]
    rw [if_neg (natToDigits_head_ne_minus _ _ _ h), ← h, parseNatAux_natToDigits]
    simp
    omega

/-- Normalisation the CSV round trip applies to the nullable region:
a present-but-empty region reads back as null (pandas turns the empty
cell into `NaN`). -/
def normReg : Option String → Option String
  | none => none
  | some s => if s = "" then none else some s

/-- A record after one serialisation round trip. -/
def normRow (r : Row) : Row := { r with region := normReg r.region }

theorem parseRegionCell_regionCell (o : Option String) :
    parseRegionCell (regionCell o) = normReg o := by
  cases o with
  | none => simp [parseRegionCell, regionCell, normReg]
  | some s => simp [parseRegionCell, regionCell, normReg]

theorem cellsToRow_rowToCells (r : Row) :
    cellsToRow (rowToCells r) = some (normRow r) := by
  simp [rowToCells, cellsToRow, parseNatCell_natToDigits, parseIntCell_intRepr,
    parseRegionCell_regionCell, normRow]

theorem readRows_map_rowToCells (rows : List Row) :
    readRows (rows.map rowToCells) = some (rows.map normRow) := by
  induction rows with
  | nil => simp [readRows]
  | cons r rs ih => simp [readRows, cellsToRow_rowToCells, ih]

/-! Helper lemmas: the region-fill step. -/

theorem load_data_table_some (cap : GeoCap) (rows : List Row) (out : List EnrichedRow)
    (h : (load_data cap (ReadResult.table rows)).1 = some out) :
    out = (fillRegions cap rows).map enrichRow := by
  by_cases hemp : rows.isEmpty <;> simp [load_data, hemp] at h
  exact h.symm

theorem fillRegions_exists_map (cap : GeoCap) (rows : List Row) :
    ∃ g : Row → Row, fillRegions cap rows = rows.map g ∧
      ∀ r, (g r).id = r.id ∧ (g r).id_descargado = r.id_descargado ∧
        (g r).lat = r.lat ∧ (g r).lon = r.lon ∧
        (g r).fecha_hora_descarga = r.fecha_hora_descarga ∧
        ∀ s, r.region = some s → (g r).region = some s := by
  unfold fillRegions
  by_cases hany : rows.any (fun r => r.region.isNone)
  · refine ⟨(fun r => { r with region := some (r.region.getD "Desconocida") }) ∘ fillRow cap,
      ?_, ?_⟩
    · simp [hany, List.map_map]
    · intro r
      cases cap <;> cases hr : r.region <;> simp [fillRow, Function.comp, hr]
  · refine ⟨fun r => { r with region := some (r.region.getD "Desconocida") }, ?_, ?_⟩
    · simp [hany]
    · intro r
      cases hr : r.region <;> simp [hr]

theorem fillRegions_region_isSome (cap : GeoCap) (rows : List Row) :
    ∀ r ∈ fillRegions cap rows, r.region.isSome := by
  intro r hr
  unfold fillRegions at hr
  obtain ⟨r₁, _, hr₁⟩ := List.mem_map.mp hr
  rw [← hr₁]
  rfl

theorem fillRegions_region_ne_empty (cap : GeoCap) (rows : List Row)
    (hcap : ∀ f, cap = GeoCap.working f → ∀ la lo, f la lo ≠ "")
    (hrows : ∀ r ∈ rows, ∀ s, r.region = some s → s ≠ "") :
    ∀ r ∈ fillRegions cap rows, ∀ s, r.region = some s → s ≠ "" := by
  intro r hr s hs
  unfold fillRegions at hr
  obtain ⟨r₁, hr₁mem, hr₁⟩ := List.mem_map.mp hr
  have hregion : ∀ t, r₁.region = some t → t ≠ "" := by
    by_cases hany : rows.any (fun r => r.region.isNone)
    · rw [if_pos hany] at hr₁mem
      obtain ⟨r₀, hr₀mem, hr₀⟩ := List.mem_map.mp hr₁mem
      intro t ht
      cases cap with
      | missing =>
        rw [← hr₀] at ht
        cases hro : r₀.region with
        | none => simp [fillRow, hro] at ht; subst ht; decide
        | some u =>
          simp [fillRow, hro] at ht
          subst ht
          exact hrows r₀ hr₀mem u hro
      | failing =>
        rw [← hr₀] at ht
        cases hro : r₀.region with
        | none => simp [fillRow, hro] at ht; subst ht; decide
        | some u =>
          simp [fillRow, hro] at ht
          subst ht
          exact hrows r₀ hr₀mem u hro
      | working f =>
        rw [← hr₀] at ht
        cases hro : r₀.region with
        | none =>
          simp [fillRow, hro] at ht
          subst ht
          exact hcap f rfl r₀.lat r₀.lon
        | some u =>
          simp [fillRow, hro] at ht
          subst ht
          exact hrows r₀ hr₀mem u hro
    · rw [if_neg hany] at hr₁mem
      exact hrows r₁ hr₁mem
  rw [← hr₁] at hs
  cases hro : r₁.region with
  | none =>
    simp [hro] at hs
    subst hs
    decide
  | some u =>
    simp [hro] at hs
    subst hs
    exact hregion u hro

/-! Helper lemmas: regions materialised by `read_csv` are never the
empty string (an empty cell reads as null instead). -/

theorem parseRegionCell_ne_empty (e s : String) (h : parseRegionCell e = some s) :
    s ≠ "" := by
  unfold parseRegionCell at h
  by_cases he : e = ""
  · simp [he] at h
  · rw [if_neg he] at h
    obtain rfl : e = s := Option.some.inj h
    exact he

theorem cellsToRow_region_ne_empty (cs : List String) (r : Row)
    (h : cellsToRow cs = some r) : ∀ s, r.region = some s → s ≠ "" := by
  match cs with
  | [] => simp [cellsToRow] at h
  | [_] => simp [cellsToRow] at h
  | [_, _] => simp [cellsToRow] at h
  | [_, _, _] => simp [cellsToRow] at h
  | [_, _, _, _] => simp [cellsToRow] at h
  | [_, _, _, _, _] => simp [cellsToRow] at h
  | [a, b, c, d, e, f] =>
    intro s hs
    simp only [cellsToRow, Option.bind_eq_bind, Option.bind_eq_some] at h
    obtain ⟨i, _, idd, _, la, _, lo, _, ts, _, hr⟩ := h
    obtain rfl := Option.some.inj hr
    simp at hs
    exact parseRegionCell_ne_empty e s hs
  | _ :: _ :: _ :: _ :: _ :: _ :: _ :: _ => simp [cellsToRow] at h

theorem readRows_region_ne_empty (data : List (List String)) (rows : List Row)
    (h : readRows data = some rows) :
    ∀ r ∈ rows, ∀ s, r.region = some s → s ≠ "" := by
  induction data generalizing rows with
  | nil =>
    simp [readRows] at h
    subst h
    simp
  | cons cs rest ih =>
    simp only [readRows] at h
    cases hc : cellsToRow cs with
    | none => rw [hc] at h; simp at h
    | some r₀ =>
      rw [hc] at h
      cases hrest : readRows rest with
      | none => rw [hrest] at h; simp at h
      | some rs =>
        rw [hrest] at h
        obtain rfl := Option.some.inj h
        intro r hr
        rcases List.mem_cons.mp hr with rfl | hmem
        · exact cellsToRow_region_ne_empty cs r hc
        · exact ih rs hrest r hmem

theorem readFile_table (file : Option Csv) (rows : List Row)
    (h : readFile file = ReadResult.table rows) :
    ∀ r ∈ rows, ∀ s, r.region = some s → s ≠ "" := by
  match file with
  | none => simp [readFile] at h
  | some [] => simp [readFile] at h
  | some (hdr :: data) =>
    simp only [readFile] at h
    by_cases hh : hdr = csvHeader
    · rw [if_pos hh] at h
      cases hd : readRows data with
      | none => rw [hd] at h; simp at h
      | some rows' =>
        rw [hd] at h
        have heq : rows' = rows := ReadResult.table.inj h
        rw [heq] at hd
        exact readRows_region_ne_empty data rows hd
    · rw [if_neg hh] at h
      simp at h

/-! Helper lemmas: the `groupby` partition arithmetic. -/

theorem filterMap_region_length (rows : List EnrichedRow)
    (h : ∀ r ∈ rows, r.region.isSome) :
    (rows.filterMap (fun r => r.region)).length = rows.length := by
  induction rows with
  | nil => simp
  | cons r rs ih =>
    obtain ⟨s, hs⟩ := Option.isSome_iff_exists.mp (h r (List.mem_cons_self r rs))
    simp [List.filterMap_cons, hs, ih (fun x hx => h x (List.mem_cons_of_mem r hx))]

theorem filter_region_count (rows : List EnrichedRow)
    (h : ∀ r ∈ rows, r.region.isSome) (z : String) :
    (rows.filter (fun r => r.region = some z)).length =
      (rows.filterMap (fun r => r.region)).count z := by
  induction rows with
  | nil => simp
  | cons r rs ih =>
    obtain ⟨s, hs⟩ := Option.isSome_iff_exists.mp (h r (List.mem_cons_self r rs))
    have ih' := ih (fun x hx => h x (List.mem_cons_of_mem r hx))
    by_cases hz : s = z
    · subst hz
      simp [List.filter_cons, List.filterMap_cons, hs, List.count_cons, ih']
    · have hne : ¬ r.region = some z := by rw [hs]; simp [hz]
      simp [List.filter_cons, List.filterMap_cons, hs, List.count_cons, hne, ih', hz,
        Ne.symm hz]

theorem dedup_toFinset (l : List String) : l.dedup.toFinset = l.toFinset := by
  ext x
  simp [List.mem_toFinset, List.mem_dedup]

theorem dedup_map_sum (l : List String) (f : String → Nat) :
    (l.dedup.map f).sum = ∑ z ∈ l.toFinset, f z := by
  rw [← dedup_toFinset]
  exact (List.sum_toFinset f l.nodup_dedup).symm

/-! The claims. -/

/-- C1 (counterexample): the claim promises that after a successful
load no region is empty, but when the geocoder returns the empty
string as `admin1` (line 148 imposes no constraint on it), the
assignment at line 151 stores that empty string and the final
`fillna` at line 158 does not touch it, since an empty string is not
`NaN`: this CSV input loads successfully with an empty region. -/
theorem C1_empty_geocode_counterexample :
    (load_data (GeoCap.working fun _ _ => "")
        (readFile (some (to_csv [⟨1, 5, 40, -3, none, 100000⟩])))).1 =
      some [⟨1, 5, 40, -3, some "", 100000, 1⟩] := by
  rfl

/-- C1 (amended): for every CSV input on which `load_data` returns a
table, every row of the returned table has a non-null region —
unconditionally, also for geocoder runs that return empty names; the
region is moreover non-empty provided every name the geocoding lookup
returns is non-empty (missing regions are filled by the lookup, by
the dependency-missing placeholder, by the geocoding-error
placeholder, or finally forced to the generic placeholder; a lookup
result that is itself the empty string is stored as-is). -/
theorem C1_region_filled_nonempty_amended (cap : GeoCap) (file : Option Csv)
    (out : List EnrichedRow) (r : EnrichedRow)
    (h : (load_data cap (readFile file)).1 = some out) (hr : r ∈ out) :
    r.region.isSome = true ∧
      ((∀ f, cap = GeoCap.working f → ∀ la lo, f la lo ≠ "") →
        ∃ s, r.region = some s ∧ s ≠ "") := by
  cases hread : readFile file with
  | fileNotFound => rw [hread] at h; simp [load_data] at h
  | emptyData => rw [hread] at h; simp [load_data] at h
  | parseError => rw [hread] at h; simp [load_data] at h
  | table rows =>
    rw [hread] at h
    have hout := load_data_table_some cap rows out h
    subst hout
    obtain ⟨r₁, hr₁mem, hr₁⟩ := List.mem_map.mp hr
    have hsome := fillRegions_region_isSome cap rows r₁ hr₁mem
    obtain ⟨s, hs⟩ := Option.isSome_iff_exists.mp hsome
    constructor
    · rw [← hr₁]
      exact hsome
    · intro hcap
      have hne := fillRegions_region_ne_empty cap rows hcap
        (readFile_table file rows hread) r₁ hr₁mem s hs
      refine ⟨s, ?_, hne⟩
      rw [← hr₁]
      exact hs

/-- Witness for C1 (amended) at a concrete CSV file with one
null-region row loaded with the dependency missing. -/
theorem C1_region_filled_nonempty_amended_witness :
    (⟨1, 5, 40, -3, some "Desconocida", 100000, 1⟩ : EnrichedRow).region.isSome =
        true ∧
      ((∀ f, GeoCap.missing = GeoCap.working f → ∀ la lo, f la lo ≠ "") →
        ∃ s, (⟨1, 5, 40, -3, some "Desconocida", 100000, 1⟩ :
            EnrichedRow).region = some s ∧ s ≠ "") :=
  C1_region_filled_nonempty_amended GeoCap.missing
    (some (to_csv [⟨1, 5, 40, -3, none, 100000⟩]))
    [⟨1, 5, 40, -3, some "Desconocida", 100000, 1⟩]
    ⟨1, 5, 40, -3, some "Desconocida", 100000, 1⟩
    (by rfl) (by decide)

/-- C2 (counterexample): with two rows sharing `id_descargado` but in
two regions, the per-region distinct counts sum to 2 while the
all-time distinct count is 1, so the claimed inequality (sum never
exceeds the all-time distinct count) fails. -/
theorem C2_sum_exceeds_total_counterexample :
    ¬ (((df_zona [⟨1, 5, 0, 0, some "A", 0, 0⟩, ⟨2, 5, 0, 0, some "B", 0, 0⟩]).map
          (fun zr => zr.descargas_unicas)).sum ≤
        total_unicas_global
          [⟨1, 5, 0, 0, some "A", 0, 0⟩, ⟨2, 5, 0, 0, some "B", 0, 0⟩]) := by
  decide

/-- C2 (amended): for every enriched table (all regions present), the
all-time distinct downloaded-item count never exceeds the sum over
the RegionSummary rows of the per-region distinct counts — the
inequality holds in the direction opposite to the claim, since
regions can share downloaded items. -/
theorem C2_total_unicas_le_region_sum_amended (rows : List EnrichedRow)
    (h : ∀ r ∈ rows, r.region.isSome) :
    total_unicas_global rows ≤
      ((df_zona rows).map (fun zr => zr.descargas_unicas)).sum := by
  have hsum :
      ((df_zona rows).map (fun zr => zr.descargas_unicas)).sum =
        ((rows.filterMap (fun r => r.region)).dedup.map (fun z =>
          (((rows.filter (fun r => r.region = some z)).map
            (fun r => r.id_descargado)).toFinset).card)).sum := by
    unfold df_zona
    rw [List.map_map]
    congr 1
  have hsub :
      (rows.map (fun r => r.id_descargado)).toFinset ⊆
        (rows.filterMap (fun r => r.region)).toFinset.biUnion (fun z =>
          ((rows.filter (fun r => r.region = some z)).map
            (fun r => r.id_descargado)).toFinset) := by
    intro x hx
    rw [List.mem_toFinset, List.mem_map] at hx
    obtain ⟨r, hrmem, hrx⟩ := hx
    obtain ⟨z, hz⟩ := Option.isSome_iff_exists.mp (h r hrmem)
    rw [Finset.mem_biUnion]
    refine ⟨z, ?_, ?_⟩
    · rw [List.mem_toFinset, List.mem_filterMap]
      exact ⟨r, hrmem, hz⟩
    · rw [List.mem_toFinset, List.mem_map]
      exact ⟨r, List.mem_filter.mpr ⟨hrmem, by simp [hz]⟩, hrx⟩
  calc total_unicas_global rows
      = (rows.map (fun r => r.id_descargado)).toFinset.card :=
        (List.card_toFinset _).symm
    _ ≤ ((rows.filterMap (fun r => r.region)).toFinset.biUnion (fun z =>
          ((rows.filter (fun r => r.region = some z)).map
            (fun r => r.id_descargado)).toFinset)).card :=
        Finset.card_le_card hsub
    _ ≤ ∑ z ∈ (rows.filterMap (fun r => r.region)).toFinset,
          (((rows.filter (fun r => r.region = some z)).map
            (fun r => r.id_descargado)).toFinset).card :=
        Finset.card_biUnion_le
    _ = ((df_zona rows).map (fun zr => zr.descargas_unicas)).sum := by
        rw [hsum, dedup_map_sum]

/-- Witness for C2 (amended) at a concrete one-row table. -/
theorem C2_total_unicas_le_region_sum_amended_witness :
    total_unicas_global [⟨1, 5, 0, 0, some "A", 0, 0⟩] ≤
      ((df_zona [⟨1, 5, 0, 0, some "A", 0, 0⟩]).map
        (fun zr => zr.descargas_unicas)).sum :=
  C2_total_unicas_le_region_sum_amended [⟨1, 5, 0, 0, some "A", 0, 0⟩] (by decide)

/-- C3: for every enriched table all of whose rows carry a region
(the post-load invariant), the per-region record counts `Descargas`
in the RegionSummary sum to the number of rows of the table, the
all-time total record count. -/
theorem C3_sum_descargas_eq_total (rows : List EnrichedRow)
    (h : ∀ r ∈ rows, r.region.isSome) :
    ((df_zona rows).map (fun zr => zr.descargas)).sum =
      total_descargas_global rows := by
  unfold df_zona total_descargas_global
  rw [List.map_map]
  have hcongr :
      ((rows.filterMap (fun r => r.region)).dedup.map
        ((fun zr : ZonaRow => zr.descargas) ∘ (fun z =>
          (⟨z, (rows.filter (fun r => r.region = some z)).length,
            ((rows.filter (fun r => r.region = some z)).map
              (fun r => r.id_descargado)).dedup.length⟩ : ZonaRow)))).sum =
      ((rows.filterMap (fun r => r.region)).dedup.map
        (fun z => (rows.filterMap (fun r => r.region)).count z)).sum := by
    congr 1
    apply List.map_congr_left
    intro z _
    exact filter_region_count rows h z
  rw [hcongr, dedup_map_sum, List.sum_toFinset_count_eq_length]
  exact filterMap_region_length rows h

/-- Witness for C3 at a concrete two-row table. -/
theorem C3_sum_descargas_eq_total_witness :
    ((df_zona [⟨1, 5, 0, 0, some "A", 0, 0⟩, ⟨2, 5, 0, 0, some "B", 0, 0⟩]).map
        (fun zr => zr.descargas)).sum =
      total_descargas_global
        [⟨1, 5, 0, 0, some "A", 0, 0⟩, ⟨2, 5, 0, 0, some "B", 0, 0⟩] :=
  C3_sum_descargas_eq_total
    [⟨1, 5, 0, 0, some "A", 0, 0⟩, ⟨2, 5, 0, 0, some "B", 0, 0⟩] (by decide)

/-- C4 (counterexample): with the geocoding dependency missing, the
row whose region is null is assigned the placeholder `'Desconocida'`
(line 131), which is not the string `"Unknown"` the claim names. -/
theorem C4_placeholder_not_unknown_counterexample :
    (load_data GeoCap.missing (ReadResult.table [⟨1, 5, 40, -3, none, 100000⟩])).1 =
        some [⟨1, 5, 40, -3, some "Desconocida", 100000, 1⟩] ∧
      ("Desconocida" : String) ≠ "Unknown" := by
  constructor
  · rfl
  · decide

/-- C4 (amended): when the reverse-geocoding capability is
unavailable, every row whose region is missing is assigned the fixed
placeholder string `'Desconocida'` by the region-fill step of
`load_data`. -/
theorem C4_missing_dep_placeholder_amended (rows : List Row) (i : Nat)
    (hi : i < rows.length) (ho : i < (fillRegions GeoCap.missing rows).length)
    (hr : (rows.get ⟨i, hi⟩).region = none) :
    ((fillRegions GeoCap.missing rows).get ⟨i, ho⟩).region = some "Desconocida" := by
  simp only [List.get_eq_getElem] at hr
  have hany : rows.any (fun r => r.region.isNone) = true := by
    simp only [List.any_eq_true]
    exact ⟨rows[i], List.getElem_mem hi, by simp [hr]⟩
  simp only [fillRegions, hany, if_true, List.get_eq_getElem, List.getElem_map]
  simp [fillRow, hr]

/-- Witness for C4 (amended) at a concrete one-row table with a null
region. -/
theorem C4_missing_dep_placeholder_amended_witness :
    ((fillRegions GeoCap.missing [⟨1, 5, 40, -3, none, 100000⟩]).get
        ⟨0, by decide⟩).region = some "Desconocida" :=
  C4_missing_dep_placeholder_amended [⟨1, 5, 40, -3, none, 100000⟩] 0
    (by decide) (by decide) (by decide)

/-- C5: writing any table to the snapshot CSV (`to_csv` of the
refresh) and reading it back (`read_csv` of `load_data`) yields a
table with the same number of rows and the same identifier values —
no record is lost by the round trip (the nullable region may
normalise: a present-but-empty region reads back as null). -/
theorem C5_snapshot_roundtrip (rows : List Row) :
    ∃ rows', readFile (some (to_csv rows)) = ReadResult.table rows' ∧
      rows'.length = rows.length ∧ rows'.map Row.id = rows.map Row.id := by
  refine ⟨rows.map normRow, ?_, by simp, ?_⟩
  · simp [to_csv, readFile, readRows_map_rowToCells]
  · simp only [List.map_map]
    apply List.map_congr_left
    intro r _
    rfl

/-- C6 (counterexample): not every failure leaves the snapshot
usable — an exception raised by the `to_csv` write itself (caught by
the `except Exception` of line 82, refresh still reports `False`) can
leave the file truncated: here a write that fails after emitting zero
rows replaces an existing readable snapshot with an empty file, which
the next load no longer reads as a table. -/
theorem C6_write_failure_counterexample :
    (actualizar_csv_con_st_connection
        (RefreshEvent.writeError [⟨2, 6, 41, 2, some "B", 200000⟩] 0)
        (some (to_csv [⟨1, 5, 40, -3, none, 100000⟩]))).1 = false ∧
      (actualizar_csv_con_st_connection
        (RefreshEvent.writeError [⟨2, 6, 41, 2, some "B", 200000⟩] 0)
        (some (to_csv [⟨1, 5, 40, -3, none, 100000⟩]))).2 ≠
        some (to_csv [⟨1, 5, 40, -3, none, 100000⟩]) ∧
      readFile (actualizar_csv_con_st_connection
        (RefreshEvent.writeError [⟨2, 6, 41, 2, some "B", 200000⟩] 0)
        (some (to_csv [⟨1, 5, 40, -3, none, 100000⟩]))).2 =
        ReadResult.emptyData := by
  refine ⟨rfl, ?_, rfl⟩
  decide

/-- C6 (amended): whenever the refresh fails before the write begins
(missing configuration, connectivity/SQL error, missing driver, or an
unexpected exception raised before `to_csv` runs), it returns the
failure indicator `False` and the snapshot file is left exactly as it
was, so a previous snapshot stays readable by the next load; a
failure of the write itself also returns `False` but may leave the
snapshot truncated. -/
theorem C6_prewrite_failure_preserves_snapshot (ev : RefreshEvent)
    (file : Option Csv) (h : ev.isPreWriteFailure = true) :
    actualizar_csv_con_st_connection ev file = (false, file) := by
  cases ev with
  | querySuccess data => simp [RefreshEvent.isPreWriteFailure] at h
  | writeError data written => simp [RefreshEvent.isPreWriteFailure] at h
  | configMissing => rfl
  | operationalError => rfl
  | driverNotFound => rfl
  | unexpectedError => rfl

/-- Witness for C6 (amended) at a concrete pre-write failure over an
existing snapshot. -/
theorem C6_prewrite_failure_preserves_snapshot_witness :
    actualizar_csv_con_st_connection RefreshEvent.configMissing
        (some (to_csv [⟨1, 5, 40, -3, none, 100000⟩])) =
      (false, some (to_csv [⟨1, 5, 40, -3, none, 100000⟩])) :=
  C6_prewrite_failure_preserves_snapshot RefreshEvent.configMissing
    (some (to_csv [⟨1, 5, 40, -3, none, 100000⟩])) rfl

/-- C7: for every enriched table and every inclusive date range that
matches no row's calendar date, the daily-summary computation renders
the no-data report and raises no error. -/
theorem C7_empty_range_reports_no_data (rows : List EnrichedRow)
    (start_date end_date : Nat)
    (h : ∀ r ∈ rows, ¬(start_date ≤ r.fecha ∧ r.fecha ≤ end_date)) :
    dateRangeReport rows start_date end_date = DateReport.noData := by
  have hfil : df_filtrado_fecha rows start_date end_date = [] := by
    unfold df_filtrado_fecha
    rw [List.filter_eq_nil_iff]
    intro r hr
    simp only [Bool.and_eq_true, decide_eq_true_eq, not_and]
    intro h1 h2
    exact h r hr ⟨h1, h2⟩
  unfold dateRangeReport
  rw [hfil]
  rfl

/-- Witness for C7 at a concrete table and range with no matches. -/
theorem C7_empty_range_reports_no_data_witness :
    dateRangeReport [⟨1, 5, 0, 0, some "A", 100000, 1⟩] 10 20 =
      DateReport.noData :=
  C7_empty_range_reports_no_data [⟨1, 5, 0, 0, some "A", 100000, 1⟩] 10 20
    (by decide)

/-- C8: when the snapshot file is absent, `load_data` returns `None`
together with the user-facing prompt to refresh, and propagates no
exception. -/
theorem C8_missing_file_prompts_refresh (cap : GeoCap) :
    load_data cap (readFile none) = (none, [Msg.infoPromptRefresh]) := rfl

/-- C9: for every table whose region column has no nulls, the
region-fill step leaves the region column unchanged. -/
theorem C9_fill_noop_without_nulls (cap : GeoCap) (rows : List Row)
    (h : ∀ r ∈ rows, r.region.isSome) :
    (fillRegions cap rows).map (fun r => r.region) =
      rows.map (fun r => r.region) := by
  have hany : rows.any (fun r => r.region.isNone) = false := by
    simp only [List.any_eq_false]
    intro r hr
    simp [Option.isNone_iff_eq_none]
    obtain ⟨s, hs⟩ := Option.isSome_iff_exists.mp (h r hr)
    simp [hs]
  unfold fillRegions
  rw [hany]
  simp only [Bool.false_eq_true, if_false, List.map_map]
  apply List.map_congr_left
  intro r hr
  obtain ⟨s, hs⟩ := Option.isSome_iff_exists.mp (h r hr)
  simp [Function.comp, hs]

/-- Witness for C9 at a concrete table with no null regions. -/
theorem C9_fill_noop_without_nulls_witness :
    (fillRegions GeoCap.missing [⟨2, 5, 41, 2, some "A", 200000⟩]).map
        (fun r => r.region) =
      [(⟨2, 5, 41, 2, some "A", 200000⟩ : Row)].map (fun r => r.region) :=
  C9_fill_noop_without_nulls GeoCap.missing [⟨2, 5, 41, 2, some "A", 200000⟩]
    (by decide)

/-- C10: whenever `load_data` returns a table, the region-fill and
date-parsing steps neither add nor remove rows, each output row keeps
the identifier and coordinate values of the input row at the same
position, and a row whose region was already present keeps it. -/
theorem C10_fill_and_dates_frame (cap : GeoCap) (rows : List Row)
    (out : List EnrichedRow)
    (h : (load_data cap (ReadResult.table rows)).1 = some out)
    (i : Nat) (hi : i < rows.length) (ho : i < out.length) :
    out.length = rows.length ∧
      (out.get ⟨i, ho⟩).id = (rows.get ⟨i, hi⟩).id ∧
      (out.get ⟨i, ho⟩).id_descargado = (rows.get ⟨i, hi⟩).id_descargado ∧
      (out.get ⟨i, ho⟩).lat = (rows.get ⟨i, hi⟩).lat ∧
      (out.get ⟨i, ho⟩).lon = (rows.get ⟨i, hi⟩).lon ∧
      ∀ s, (rows.get ⟨i, hi⟩).region = some s →
        (out.get ⟨i, ho⟩).region = some s := by
  obtain ⟨g, hg, hprops⟩ := fillRegions_exists_map cap rows
  have hout : out = rows.map (fun r => enrichRow (g r)) := by
    rw [load_data_table_some cap rows out h, hg, List.map_map]
    rfl
  subst hout
  refine ⟨by simp, ?_⟩
  simp only [List.get_eq_getElem, List.getElem_map]
  obtain ⟨h1, h2, h3, h4, h5, h6⟩ := hprops rows[i]
  exact ⟨h1, h2, h3, h4, fun s hs => h6 s hs⟩

/-- Witness for C10 at a concrete one-row table whose region is
present. -/
theorem C10_fill_and_dates_frame_witness :
    ([(⟨2, 5, 41, 2, some "A", 200000, 2⟩ : EnrichedRow)]).length =
        ([(⟨2, 5, 41, 2, some "A", 200000⟩ : Row)]).length ∧
      ((([(⟨2, 5, 41, 2, some "A", 200000, 2⟩ : EnrichedRow)]).get
          ⟨0, by decide⟩).id =
        (([(⟨2, 5, 41, 2, some "A", 200000⟩ : Row)]).get ⟨0, by decide⟩).id) ∧
      ((([(⟨2, 5, 41, 2, some "A", 200000, 2⟩ : EnrichedRow)]).get
          ⟨0, by decide⟩).id_descargado =
        (([(⟨2, 5, 41, 2, some "A", 200000⟩ : Row)]).get
          ⟨0, by decide⟩).id_descargado) ∧
      ((([(⟨2, 5, 41, 2, some "A", 200000, 2⟩ : EnrichedRow)]).get
          ⟨0, by decide⟩).lat =
        (([(⟨2, 5, 41, 2, some "A", 200000⟩ : Row)]).get ⟨0, by decide⟩).lat) ∧
      ((([(⟨2, 5, 41, 2, some "A", 200000, 2⟩ : EnrichedRow)]).get
          ⟨0, by decide⟩).lon =
        (([(⟨2, 5, 41, 2, some "A", 200000⟩ : Row)]).get ⟨0, by decide⟩).lon) ∧
      ∀ s, (([(⟨2, 5, 41, 2, some "A", 200000⟩ : Row)]).get
          ⟨0, by decide⟩).region = some s →
        (([(⟨2, 5, 41, 2, some "A", 200000, 2⟩ : EnrichedRow)]).get
          ⟨0, by decide⟩).region = some s :=
  C10_fill_and_dates_frame GeoCap.missing [⟨2, 5, 41, 2, some "A", 200000⟩]
    [⟨2, 5, 41, 2, some "A", 200000, 2⟩] (by rfl) 0 (by decide) (by decide)

end Dashboard
